import Mathlib

/-!
Verification of the target-identity subsystem (`target-spec/src/single_target.rs`).

`SingleTarget` owns a triple string together with its structured decomposition
(`lexicon_triple`), parsed by the external `target-lexicon` crate.  Equality,
ordering and hashing are keyed solely on the stored `triple_str`; predicate
matching delegates to the external `cfg-expr` matcher on the decomposition.

The decomposition routine, the predicate evaluator, the `Platform` wrapper and
the `SingleTargetParseError` type live outside the provided source; they are
modelled here from the specification, faithfully to its words.  Everything in
the `SingleTarget` namespace below is a direct embedding of the Rust source.
-/

/-- Target architecture, a closed enumeration member of the decomposition
vocabulary ("unknown" is a valid member). -/
inductive Architecture where
  | x86_64
  | aarch64
  | arm
  | i686
  | unknown
deriving DecidableEq, Repr

/-- Target vendor field of the decomposition. -/
inductive Vendor where
  | pc
  | apple
  | unknown
deriving DecidableEq, Repr

/-- Target operating-system field of the decomposition. -/
inductive OperatingSystem where
  | darwin
  | linux
  | windows
  | unknown
deriving DecidableEq, Repr

/-- Target environment field of the decomposition. -/
inductive Environment where
  | gnu
  | musl
  | msvc
  | unknown
deriving DecidableEq, Repr

/-- Binary (object) format field of the decomposition. -/
inductive BinaryFormat where
  | elf
  | macho
  | coff
  | unknown
deriving DecidableEq, Repr

/-- The structured decomposition of a triple string: architecture, vendor,
operating system, environment and binary format. -/
structure Triple where
  architecture : Architecture
  vendor : Vendor
  operating_system : OperatingSystem
  environment : Environment
  binary_format : BinaryFormat
deriving DecidableEq, Repr

/-- Modelled from the spec: vocabulary of known architectures recognised by the
external decomposition routine (`target-lexicon`), which is not under `src/`. -/
def parseArchitecture : String → Option Architecture
  | "x86_64" => some .x86_64
  | "aarch64" => some .aarch64
  | "arm" => some .arm
  | "i686" => some .i686
  | _ => none

/-- Modelled from the spec: vocabulary of known vendors. -/
def parseVendor : String → Option Vendor
  | "pc" => some .pc
  | "apple" => some .apple
  | "unknown" => some .unknown
  | _ => none

/-- Modelled from the spec: vocabulary of known operating systems. -/
def parseOperatingSystem : String → Option OperatingSystem
  | "darwin" => some .darwin
  | "linux" => some .linux
  | "windows" => some .windows
  | _ => none

/-- Modelled from the spec: vocabulary of known environments. -/
def parseEnvironment : String → Option Environment
  | "gnu" => some .gnu
  | "musl" => some .musl
  | "msvc" => some .msvc
  | _ => none

/-- Modelled from the spec: vocabulary of known binary formats. -/
def parseBinaryFormat : String → Option BinaryFormat
  | "elf" => some .elf
  | "macho" => some .macho
  | "coff" => some .coff
  | _ => none

/-- Modelled from the spec: the platform's native object format for an
operating system, used when the triple does not spell the format out
(darwin → mach-o, linux → elf, windows → coff). -/
def defaultBinaryFormat : OperatingSystem → BinaryFormat
  | .darwin => .macho
  | .linux => .elf
  | .windows => .coff
  | .unknown => .unknown

/-- Splits a character list at `'-'` separators, accumulating the current
field in reverse; models Rust's `str::split('-')`. -/
def splitDashAux : List Char → List Char → List String
  | [], acc => [String.mk acc.reverse]
  | c :: cs, acc =>
    if c = '-' then String.mk acc.reverse :: splitDashAux cs []
    else splitDashAux cs (c :: acc)

/-- Splits a string into its hyphen-separated fields. -/
def splitDash (s : String) : List String := splitDashAux s.data []

/-- Modelled from the spec: after the architecture, the remaining
hyphen-separated fields are consumed in order as vendor, operating system,
environment and binary format, each optional with "unknown" as the default;
a leftover field outside the vocabulary is a decomposition failure. -/
def parseTripleRest (arch : Architecture) (parts : List String) : Except String Triple :=
  let (vendor, parts1) :=
    match parts with
    | p :: ps =>
      match parseVendor p with
      | some v => (v, ps)
      | none => (Vendor.unknown, p :: ps)
    | [] => (Vendor.unknown, [])
  let (os, parts2) :=
    match parts1 with
    | p :: ps =>
      match parseOperatingSystem p with
      | some o => (o, ps)
      | none => (OperatingSystem.unknown, p :: ps)
    | [] => (OperatingSystem.unknown, [])
  let (env, parts3) :=
    match parts2 with
    | p :: ps =>
      match parseEnvironment p with
      | some e => (e, ps)
      | none => (Environment.unknown, p :: ps)
    | [] => (Environment.unknown, [])
  let (bf, parts4) :=
    match parts3 with
    | p :: ps =>
      match parseBinaryFormat p with
      | some b => (some b, ps)
      | none => (none, p :: ps)
    | [] => (none, [])
  match parts4 with
  | [] => Except.ok ⟨arch, vendor, os, env, bf.getD (defaultBinaryFormat os)⟩
  | _ => Except.error "unrecognized field"

/-- Modelled from the spec: the external decomposition routine
`decompose(text) -> StructuredTriple | DecompositionError`
(`target-lexicon`'s triple parsing, not under `src/`).  The first
hyphen-separated field must be a known architecture; any string outside the
vocabulary yields a failure, not a best-effort guess. -/
def parseTriple (s : String) : Except String Triple :=
  match splitDash s with
  | [] => Except.error "empty triple"
  | archStr :: rest =>
    match parseArchitecture archStr with
    | none => Except.error "unrecognized architecture"
    | some arch => parseTripleRest arch rest

/-- Modelled from the spec: `ParseError{ input, cause }` — the typed parse
error (`SingleTargetParseError`, declared in the crate's `errors` module,
not under `src/`); it retains the original input text for diagnostics. -/
structure SingleTargetParseError where
  input : String
  cause : String
deriving DecidableEq, Repr

/-- Embeds `SingleTargetParseError::new`. -/
def SingleTargetParseError.new (input cause : String) : SingleTargetParseError :=
  ⟨input, cause⟩

/-- Embeds `struct SingleTarget`: the triple string together with the
`Triple` used for (predicate) comparisons. -/
structure SingleTarget where
  triple_str : String
  lexicon_triple : Triple
deriving DecidableEq, Repr

/-- Embeds `SingleTarget::new`: parse the string as a `Triple`; on success
store the original string verbatim alongside the decomposition, on failure
return an error carrying the input. -/
def SingleTarget.new (triple_str : String) : Except SingleTargetParseError SingleTarget :=
  match parseTriple triple_str with
  | Except.ok lexicon_triple => Except.ok ⟨triple_str, lexicon_triple⟩
  | Except.error lexicon_err =>
      Except.error (SingleTargetParseError.new triple_str lexicon_err)

/-- Embeds `impl FromStr for SingleTarget` (identical logic to `new`, modulo
string ownership). -/
def SingleTarget.fromStr (triple_str : String) : Except SingleTargetParseError SingleTarget :=
  match parseTriple triple_str with
  | Except.ok lexicon_triple => Except.ok ⟨triple_str, lexicon_triple⟩
  | Except.error lexicon_err =>
      Except.error (SingleTargetParseError.new triple_str lexicon_err)

/-- Embeds `SingleTarget::triple_str`: returns the stored triple string. -/
def SingleTarget.tripleStrAccessor (t : SingleTarget) : String :=
  t.triple_str

/-- Embeds `impl PartialEq for SingleTarget`: equality is on `triple_str`
only. -/
def SingleTarget.beq (a b : SingleTarget) : Bool :=
  a.triple_str == b.triple_str

/-- Modelled from the spec: the higher-level `Platform` abstraction (outside
this core) pairs a `SingleTarget` with auxiliary feature flags;
`single_target` exposes the underlying target. -/
structure Platform where
  single_target : SingleTarget
  flags : List String

/-- Embeds `SingleTarget::eval`: compares `self` against the `SingleTarget`
the platform is based on, ignoring target features and flags. -/
def SingleTarget.eval (t : SingleTarget) (platform : Platform) : Bool :=
  SingleTarget.beq t platform.single_target

/-- Modelled from the spec: a `TargetPredicate` value of the external
expression layer (`cfg-expr`) — a constraint over one decomposition
attribute. -/
inductive TargetPredicate where
  | arch (a : Architecture)
  | vendor (v : Vendor)
  | os (o : OperatingSystem)
  | env (e : Environment)
  | binaryFormat (b : BinaryFormat)
deriving DecidableEq, Repr

/-- Modelled from the spec: the predicate evaluator's consumed interface
`predicate.matches(StructuredTriple) -> boolean`. -/
def TargetPredicate.matchesTriple : TargetPredicate → Triple → Bool
  | .arch a, t => t.architecture = a
  | .vendor v, t => t.vendor = v
  | .os o, t => t.operating_system = o
  | .env e, t => t.environment = e
  | .binaryFormat b, t => t.binary_format = b

/-- Embeds `SingleTarget::matches`: delegates to cfg-expr's target matcher on
the stored `lexicon_triple`. -/
def SingleTarget.matchesPredicate (t : SingleTarget) (p : TargetPredicate) : Bool :=
  p.matchesTriple t.lexicon_triple

/-- Comparison of two characters by code point, modelling byte/codepoint
order of Rust's `str` comparison. -/
def charCmp (a b : Char) : Ordering :=
  compare a.toNat b.toNat

/-- Lexicographic comparison of character lists, modelling Rust's `str::cmp`
(byte order coincides with codepoint order on valid UTF-8). -/
def charsCmp : List Char → List Char → Ordering
  | [], [] => .eq
  | [], _ :: _ => .lt
  | _ :: _, [] => .gt
  | a :: as, b :: bs =>
    match charCmp a b with
    | .eq => charsCmp as bs
    | o => o

/-- Lexicographic comparison of strings, modelling `str::cmp`. -/
def strCmp (a b : String) : Ordering :=
  charsCmp a.data b.data

/-- Models `str::partial_cmp`, which is always `Some` of the total
comparison. -/
def strOptCmp (a b : String) : Option Ordering :=
  some (strCmp a b)

/-- Embeds `impl Ord for SingleTarget`: delegates to `triple_str`
comparison. -/
def SingleTarget.cmp (x y : SingleTarget) : Ordering :=
  strCmp x.triple_str y.triple_str

/-- Embeds `impl PartialOrd for SingleTarget`: delegates to
`triple_str.partial_cmp`. -/
def SingleTarget.optCmp (x y : SingleTarget) : Option Ordering :=
  strOptCmp x.triple_str y.triple_str

/-- Embeds `impl Hash for SingleTarget`: the hasher state is fed exactly the
`triple_str` field, so for every hash function on strings the resulting
digest depends only on `triple_str`. -/
def SingleTarget.hashWith (f : String → Nat) (t : SingleTarget) : Nat :=
  f t.triple_str

/-! ### Helper lemmas about the character-list comparison -/

theorem charCmp_eq_iff {a b : Char} : charCmp a b = .eq ↔ a = b := by
  unfold charCmp
  rw [Nat.compare_eq_eq]
  exact ⟨fun h => Char.ext (UInt32.toNat.inj h), fun h => h ▸ rfl⟩

theorem charCmp_lt_iff {a b : Char} : charCmp a b = .lt ↔ a.toNat < b.toNat :=
  Nat.compare_eq_lt

theorem charCmp_swap (a b : Char) : charCmp b a = (charCmp a b).swap :=
  (Nat.compare_swap _ _).symm

theorem charsCmp_cons (a b : Char) (as bs : List Char) :
    charsCmp (a :: as) (b :: bs) = (charCmp a b).then (charsCmp as bs) := by
  cases h : charCmp a b <;> simp [charsCmp, h, Ordering.then]

theorem charsCmp_eq_iff (as : List Char) : ∀ bs, charsCmp as bs = .eq ↔ as = bs := by
  induction as with
  | nil => intro bs; cases bs <;> simp [charsCmp]
  | cons a as ih =>
    intro bs
    cases bs with
    | nil => simp [charsCmp]
    | cons b bs =>
      rw [charsCmp_cons, Ordering.then_eq_eq, charCmp_eq_iff, ih bs]
      constructor
      · rintro ⟨rfl, rfl⟩; rfl
      · intro h; injection h with h1 h2; exact ⟨h1, h2⟩

theorem charsCmp_lt_trans (as : List Char) :
    ∀ bs cs, charsCmp as bs = .lt → charsCmp bs cs = .lt → charsCmp as cs = .lt := by
  induction as with
  | nil =>
    intro bs cs h1 h2
    cases cs with
    | nil =>
      cases bs with
      | nil => simp [charsCmp] at h1
      | cons b bs => simp [charsCmp] at h2
    | cons c cs => simp [charsCmp]
  | cons a as ih =>
    intro bs cs h1 h2
    cases bs with
    | nil => simp [charsCmp] at h1
    | cons b bs =>
      cases cs with
      | nil => simp [charsCmp] at h2
      | cons c cs =>
        rw [charsCmp_cons, Ordering.then_eq_lt] at h1 h2 ⊢
        rcases h1 with h1 | ⟨h1e, h1r⟩
        · rcases h2 with h2 | ⟨h2e, h2r⟩
          · exact Or.inl (charCmp_lt_iff.mpr
              (Nat.lt_trans (charCmp_lt_iff.mp h1) (charCmp_lt_iff.mp h2)))
          · have hbc : b = c := charCmp_eq_iff.mp h2e
            exact Or.inl (hbc ▸ h1)
        · have hab : a = b := charCmp_eq_iff.mp h1e
          subst hab
          rcases h2 with h2 | ⟨h2e, h2r⟩
          · exact Or.inl h2
          · exact Or.inr ⟨h2e, ih bs cs h1r h2r⟩

theorem charsCmp_swap (as : List Char) : ∀ bs, charsCmp bs as = (charsCmp as bs).swap := by
  induction as with
  | nil => intro bs; cases bs <;> simp [charsCmp, Ordering.swap]
  | cons a as ih =>
    intro bs
    cases bs with
    | nil => simp [charsCmp, Ordering.swap]
    | cons b bs =>
      rw [charsCmp_cons, charsCmp_cons, Ordering.swap_then, ← ih bs, ← charCmp_swap]

theorem strCmp_eq_iff {a b : String} : strCmp a b = .eq ↔ a = b := by
  unfold strCmp
  rw [charsCmp_eq_iff]
  exact ⟨fun h => String.ext h, fun h => h ▸ rfl⟩

theorem strCmp_lt_trans {a b c : String} (h1 : strCmp a b = .lt) (h2 : strCmp b c = .lt) :
    strCmp a c = .lt :=
  charsCmp_lt_trans _ _ _ h1 h2

theorem strCmp_swap (a b : String) : strCmp b a = (strCmp a b).swap :=
  charsCmp_swap _ _

/-! ### Helper lemmas about construction -/

theorem new_ok_triple_str {s : String} {t : SingleTarget}
    (h : SingleTarget.new s = .ok t) : t.triple_str = s := by
  unfold SingleTarget.new at h
  split at h
  · injection h with h'; subst h'; rfl
  · exact Except.noConfusion h

theorem new_ok_lexicon {s : String} {t : SingleTarget}
    (h : SingleTarget.new s = .ok t) : parseTriple s = .ok t.lexicon_triple := by
  unfold SingleTarget.new at h
  split at h
  · next heq => injection h with h'; subst h'; exact heq
  · exact Except.noConfusion h

theorem new_error_eq {s : String} {e : SingleTargetParseError}
    (h : SingleTarget.new s = .error e) :
    e.input = s ∧ (parseTriple s).isOk = false := by
  unfold SingleTarget.new at h
  split at h
  · exact Except.noConfusion h
  · next heq =>
    injection h with h'
    subst h'
    exact ⟨rfl, by rw [heq]; rfl⟩

theorem new_isOk (s : String) : (SingleTarget.new s).isOk = (parseTriple s).isOk := by
  unfold SingleTarget.new
  cases parseTriple s <;> rfl

/-! ### Claim theorems -/

/-- C1: for all strings `a`, `b` whose construction succeeds,
`Construct(a).EvaluateAgainst(Construct(b))` is true iff `a` and `b` are equal
as raw text; the decomposition and the platform's feature flags play no role. -/
theorem singleTarget_eval_iff_raw_text_eq (a b : String) (ta tb : SingleTarget)
    (flags : List String)
    (ha : SingleTarget.new a = Except.ok ta) (hb : SingleTarget.new b = Except.ok tb) :
    SingleTarget.eval ta (Platform.mk tb flags) = true ↔ a = b := by
  unfold SingleTarget.eval SingleTarget.beq
  rw [new_ok_triple_str ha]
  show (a == tb.triple_str) = true ↔ a = b
  rw [new_ok_triple_str hb]
  exact beq_iff_eq

theorem singleTarget_eval_iff_raw_text_eq_witness :
    SingleTarget.eval
        ⟨"x86_64-pc-darwin", ⟨.x86_64, .pc, .darwin, .unknown, .macho⟩⟩
        (Platform.mk ⟨"x86_64-pc-darwin", ⟨.x86_64, .pc, .darwin, .unknown, .macho⟩⟩
          ["feature-x"]) = true
      ↔ "x86_64-pc-darwin" = "x86_64-pc-darwin" :=
  singleTarget_eval_iff_raw_text_eq "x86_64-pc-darwin" "x86_64-pc-darwin" _ _
    ["feature-x"] rfl rfl

/-- C2: for every string `s` on which construction succeeds, the accessor
returns exactly the input string, never a re-serialized form. -/
theorem singleTarget_round_trip (s : String) (t : SingleTarget)
    (h : SingleTarget.new s = Except.ok t) :
    SingleTarget.tripleStrAccessor t = s :=
  new_ok_triple_str h

theorem singleTarget_round_trip_witness :
    SingleTarget.tripleStrAccessor
        ⟨"x86_64-pc-darwin", ⟨.x86_64, .pc, .darwin, .unknown, .macho⟩⟩
      = "x86_64-pc-darwin" :=
  singleTarget_round_trip "x86_64-pc-darwin" _ rfl

/-- C3: construction fails exactly when the external decomposition routine
fails on the input: for every string `s`, `new s` succeeds iff `parseTriple s`
succeeds, and `new s` is precisely the decomposition result with the success
wrapped verbatim and the failure wrapped in a typed error built from the
original input (so the error's `input` field is `s` and nothing is silently
defaulted or retried); in particular `Construct("cannot-be-known")` fails
with captured input `"cannot-be-known"`. -/
theorem singleTarget_new_error_characterization (s : String) :
    (SingleTarget.new s).isOk = (parseTriple s).isOk
    ∧ SingleTarget.new s =
        Except.mapError (SingleTargetParseError.new s)
          (Except.map (fun lexicon_triple => (⟨s, lexicon_triple⟩ : SingleTarget))
            (parseTriple s))
    ∧ SingleTarget.new "cannot-be-known" =
        Except.error ⟨"cannot-be-known", "unrecognized architecture"⟩ := by
  refine ⟨new_isOk s, ?_, rfl⟩
  unfold SingleTarget.new
  cases parseTriple s <;> rfl

theorem singleTarget_new_error_characterization_witness :
    (SingleTarget.new "cannot-be-known").isOk = (parseTriple "cannot-be-known").isOk
    ∧ SingleTarget.new "cannot-be-known" =
        Except.mapError (SingleTargetParseError.new "cannot-be-known")
          (Except.map
            (fun lexicon_triple => (⟨"cannot-be-known", lexicon_triple⟩ : SingleTarget))
            (parseTriple "cannot-be-known"))
    ∧ SingleTarget.new "cannot-be-known" =
        Except.error ⟨"cannot-be-known", "unrecognized architecture"⟩ :=
  singleTarget_new_error_characterization "cannot-be-known"

/-- C4: for every successfully constructed identity and every predicate,
`matches` returns exactly what the predicate's own matching logic returns on
the stored decomposition; it is total (a plain `Bool`, no error path). -/
theorem singleTarget_matches_delegates (s : String) (t : SingleTarget)
    (p : TargetPredicate) (h : SingleTarget.new s = Except.ok t) :
    SingleTarget.matchesPredicate t p = TargetPredicate.matchesTriple p t.lexicon_triple :=
  rfl

theorem singleTarget_matches_delegates_witness :
    SingleTarget.matchesPredicate
        ⟨"x86_64-pc-darwin", ⟨.x86_64, .pc, .darwin, .unknown, .macho⟩⟩
        (TargetPredicate.os .darwin)
      = TargetPredicate.matchesTriple (TargetPredicate.os .darwin)
          ⟨.x86_64, .pc, .darwin, .unknown, .macho⟩ :=
  singleTarget_matches_delegates "x86_64-pc-darwin" _ (TargetPredicate.os .darwin) rfl

/-- C5: the ordering coincides with lexicographic codepoint order on the
stored triple strings and is a strict total order: `.eq` exactly on equal
canonical strings (antisymmetry), transitive on `.lt`, and swapping the
arguments swaps the outcome (totality/asymmetry). -/
theorem singleTarget_cmp_strict_total_order (x y z : SingleTarget) :
    SingleTarget.cmp x y = strCmp x.triple_str y.triple_str
    ∧ (SingleTarget.cmp x y = .eq ↔ x.triple_str = y.triple_str)
    ∧ (SingleTarget.cmp x y = .lt → SingleTarget.cmp y z = .lt →
        SingleTarget.cmp x z = .lt)
    ∧ SingleTarget.cmp y x = (SingleTarget.cmp x y).swap :=
  ⟨rfl, strCmp_eq_iff, fun h1 h2 => strCmp_lt_trans h1 h2, strCmp_swap _ _⟩

theorem singleTarget_cmp_strict_total_order_witness :
    SingleTarget.cmp ⟨"arm", ⟨.arm, .unknown, .unknown, .unknown, .unknown⟩⟩
        ⟨"i686", ⟨.i686, .unknown, .unknown, .unknown, .unknown⟩⟩
      = strCmp "arm" "i686"
    ∧ (SingleTarget.cmp ⟨"arm", ⟨.arm, .unknown, .unknown, .unknown, .unknown⟩⟩
          ⟨"i686", ⟨.i686, .unknown, .unknown, .unknown, .unknown⟩⟩ = .eq
        ↔ ("arm" : String) = "i686")
    ∧ (SingleTarget.cmp ⟨"arm", ⟨.arm, .unknown, .unknown, .unknown, .unknown⟩⟩
          ⟨"i686", ⟨.i686, .unknown, .unknown, .unknown, .unknown⟩⟩ = .lt →
        SingleTarget.cmp ⟨"i686", ⟨.i686, .unknown, .unknown, .unknown, .unknown⟩⟩
          ⟨"x86_64", ⟨.x86_64, .unknown, .unknown, .unknown, .unknown⟩⟩ = .lt →
        SingleTarget.cmp ⟨"arm", ⟨.arm, .unknown, .unknown, .unknown, .unknown⟩⟩
          ⟨"x86_64", ⟨.x86_64, .unknown, .unknown, .unknown, .unknown⟩⟩ = .lt)
    ∧ SingleTarget.cmp ⟨"i686", ⟨.i686, .unknown, .unknown, .unknown, .unknown⟩⟩
          ⟨"arm", ⟨.arm, .unknown, .unknown, .unknown, .unknown⟩⟩
        = (SingleTarget.cmp ⟨"arm", ⟨.arm, .unknown, .unknown, .unknown, .unknown⟩⟩
            ⟨"i686", ⟨.i686, .unknown, .unknown, .unknown, .unknown⟩⟩).swap :=
  singleTarget_cmp_strict_total_order _ _ _

/-- C6: hashing reads only the canonical string, so for every hash function,
identities that evaluate as equal (equivalently, equal strings) hash
identically, whatever flags the platform carries. -/
theorem singleTarget_hash_consistent (f : String → Nat) (x y : SingleTarget)
    (flags : List String) (h : SingleTarget.eval x (Platform.mk y flags) = true) :
    SingleTarget.hashWith f x = SingleTarget.hashWith f y ∧
      SingleTarget.hashWith f x = f x.triple_str := by
  have hstr : x.triple_str = y.triple_str := by
    have hb : (x.triple_str == y.triple_str) = true := h
    exact beq_iff_eq.mp hb
  exact ⟨by unfold SingleTarget.hashWith; rw [hstr], rfl⟩

theorem singleTarget_hash_consistent_witness :
    SingleTarget.hashWith String.length
        ⟨"x86_64-pc-darwin", ⟨.x86_64, .pc, .darwin, .unknown, .macho⟩⟩
      = SingleTarget.hashWith String.length
        ⟨"x86_64-pc-darwin", ⟨.x86_64, .pc, .darwin, .unknown, .macho⟩⟩
    ∧ SingleTarget.hashWith String.length
        ⟨"x86_64-pc-darwin", ⟨.x86_64, .pc, .darwin, .unknown, .macho⟩⟩
      = String.length "x86_64-pc-darwin" :=
  singleTarget_hash_consistent String.length _ _ ["feature-x"] (by decide)

/-- C7: `Construct("x86_64-pc-darwin")` succeeds, with architecture x86_64,
vendor pc, operating system darwin, environment unknown and binary format
mach-o (matching the in-tree test `tests::test_parse`). -/
theorem singleTarget_new_x86_64_pc_darwin :
    SingleTarget.new "x86_64-pc-darwin" =
      Except.ok ⟨"x86_64-pc-darwin",
        ⟨Architecture.x86_64, Vendor.pc, OperatingSystem.darwin,
         Environment.unknown, BinaryFormat.macho⟩⟩ :=
  rfl

/-- C8: construction is deterministic: two successful constructions from the
same string yield identities that are equal, compare as `.eq`, and hash
identically under any hash function, even as distinct instances. -/
theorem singleTarget_new_deterministic (s : String) (t₁ t₂ : SingleTarget)
    (f : String → Nat)
    (h₁ : SingleTarget.new s = Except.ok t₁) (h₂ : SingleTarget.new s = Except.ok t₂) :
    SingleTarget.beq t₁ t₂ = true ∧ SingleTarget.cmp t₁ t₂ = .eq ∧
      SingleTarget.hashWith f t₁ = SingleTarget.hashWith f t₂ := by
  rw [h₁] at h₂
  injection h₂ with e
  subst e
  refine ⟨?_, strCmp_eq_iff.mpr rfl, rfl⟩
  simp [SingleTarget.beq]

theorem singleTarget_new_deterministic_witness :
    SingleTarget.beq ⟨"x86_64-pc-darwin", ⟨.x86_64, .pc, .darwin, .unknown, .macho⟩⟩
        ⟨"x86_64-pc-darwin", ⟨.x86_64, .pc, .darwin, .unknown, .macho⟩⟩ = true
    ∧ SingleTarget.cmp ⟨"x86_64-pc-darwin", ⟨.x86_64, .pc, .darwin, .unknown, .macho⟩⟩
        ⟨"x86_64-pc-darwin", ⟨.x86_64, .pc, .darwin, .unknown, .macho⟩⟩ = .eq
    ∧ SingleTarget.hashWith String.length
          ⟨"x86_64-pc-darwin", ⟨.x86_64, .pc, .darwin, .unknown, .macho⟩⟩
        = SingleTarget.hashWith String.length
          ⟨"x86_64-pc-darwin", ⟨.x86_64, .pc, .darwin, .unknown, .macho⟩⟩ :=
  singleTarget_new_deterministic "x86_64-pc-darwin" _ _ String.length rfl rfl

/-- C9: the two construction paths (`new` and the `FromStr` impl) agree on
every input: same failures carrying the same input, same successes. -/
theorem singleTarget_new_eq_fromStr (s : String) :
    SingleTarget.new s = SingleTarget.fromStr s :=
  rfl

/-- C10: the `PartialOrd` impl never returns `None` and always agrees with
the `Ord` impl. -/
theorem singleTarget_optCmp_eq_some_cmp (x y : SingleTarget) :
    SingleTarget.optCmp x y = some (SingleTarget.cmp x y) ∧
      SingleTarget.optCmp x y ≠ none := by
  exact ⟨rfl, by simp [SingleTarget.optCmp, strOptCmp]⟩

theorem singleTarget_optCmp_eq_some_cmp_witness :
    SingleTarget.optCmp ⟨"arm", ⟨.arm, .unknown, .unknown, .unknown, .unknown⟩⟩
        ⟨"i686", ⟨.i686, .unknown, .unknown, .unknown, .unknown⟩⟩
      = some (SingleTarget.cmp ⟨"arm", ⟨.arm, .unknown, .unknown, .unknown, .unknown⟩⟩
          ⟨"i686", ⟨.i686, .unknown, .unknown, .unknown, .unknown⟩⟩)
    ∧ SingleTarget.optCmp ⟨"arm", ⟨.arm, .unknown, .unknown, .unknown, .unknown⟩⟩
        ⟨"i686", ⟨.i686, .unknown, .unknown, .unknown, .unknown⟩⟩ ≠ none :=
  singleTarget_optCmp_eq_some_cmp _ _
